import Mathlib

/-!
# Startup wiring of cloudfiler (`app/init.go`)

`init.go` builds the process-wide wiring: it constructs the authenticator,
appends the interceptors to the chain `WebHandler`, registers the handler
instances on the muxer and then registers every route through `addRoute`.

The functions of `init.go` (`init`, `initApplication`, `initRoutes`,
`addRoute`) are embedded as state-passing functions on `World`, the three
package-level variables of the file plus a record of the collaborator calls
made so far. The collaborators living in other packages (`web.Muxer`,
`auth.Authenticator`, `interceptor.InterceptorChain`) are modelled from the
specification; each such definition says so in its doc comment.
-/

namespace Cloudfiler

/-! ## Go maps with string keys -/

/-- A Go `map[string]V`, kept as an association list holding at most one pair per key. -/
structure StrMap (V : Type) where
  entries : List (String × V)
deriving DecidableEq, Repr

namespace StrMap

/-- The empty map, `make(map[string]V)`. -/
def empty {V : Type} : StrMap V := ⟨[]⟩

/-- Lookup in an association list by exact (case-sensitive) key comparison. -/
def find {V : Type} : List (String × V) → String → Option V
  | [], _ => none
  | (k, v) :: rest, key => if key = k then some v else find rest key

/-- Lookup `m[key]`: `none` is the "no entry" state. -/
def get {V : Type} (m : StrMap V) (key : String) : Option V :=
  find m.entries key

/-- Removal of the pairs stored under `key` from an association list. -/
def remove {V : Type} : List (String × V) → String → List (String × V)
  | [], _ => []
  | (k, v) :: rest, key => if k = key then remove rest key else (k, v) :: remove rest key

/-- Assignment `m[key] = v`: inserts, or overwrites the pair already stored under `key`. -/
def put {V : Type} (m : StrMap V) (key : String) (v : V) : StrMap V :=
  ⟨(key, v) :: remove m.entries key⟩

/-- The keys of the map. -/
def keys {V : Type} (m : StrMap V) : List String :=
  m.entries.map Prod.fst

end StrMap

/-! ## Data model -/

/-- The six handler types of package `handler` used by `init.go`. -/
inductive HandlerType where
  | IndexHandler
  | InitHandler
  | AuthHandler
  | UserHandler
  | RoleHandler
  | FileHandler
deriving DecidableEq, Repr

/-- A method expression such as `handler.RoleHandler.Delete`, the `handler interface{}`
argument of `addRoute`: the receiver type and the method name. -/
structure Action where
  receiver : HandlerType
  method : String
deriving DecidableEq, Repr

/-- The two values `init.go` passes to `AddInterceptor`: the package-level
`authenticator` and the package-level `muxer`. -/
inductive Interceptor where
  | authenticator
  | muxer
deriving DecidableEq, Repr

/-- Modelled from the spec: `auth.Authenticator` is not part of `init.go`. It carries the
login path and the post-login redirect path "fixed at construction" and owns the
Privilege Table, a map from action identifier to the required role names. -/
structure Authenticator where
  loginPath : String
  redirectPath : String
  privileges : StrMap (List String)
deriving DecidableEq, Repr

/-- Modelled from the spec: `web.Muxer` is not part of `init.go`. It holds the handler
instances given to `AddHandler`, in call order, and the action table filled by
`AddAction`, keyed by the path string ("path strings are the sole action identifiers"). -/
structure Muxer where
  handlers : List HandlerType
  actions : StrMap Action
deriving DecidableEq, Repr

/-- A call made by `init.go` on one of its collaborators. -/
inductive Call where
  | NewAuthenticator (loginPath redirectPath : String)
  | AddInterceptor (i : Interceptor)
  | AddHandler (h : HandlerType)
  | AddAction (path : String) (handler : Action)
  | SetRequiredPrivileges (path : String) (roleNames : List String)
deriving DecidableEq, Repr

/-- The failure of the wiring: a method call on the package-level `authenticator` while
it is still unset, with the path given to the failing `SetRequiredPrivileges` call. -/
inductive WiringError where
  | unsetAuthenticator (path : String)
deriving DecidableEq, Repr

/-- The package-level state of `init.go`: `muxer`, `authenticator` (unset until
`initApplication` assigns it), the interceptor chain `WebHandler`, and the record of
collaborator calls made so far, oldest first. -/
structure World where
  muxer : Muxer
  authenticator : Option Authenticator
  WebHandler : List Interceptor
  calls : List Call
deriving DecidableEq, Repr

/-! ## Collaborators -/

/-- Modelled from the spec: `web.NewMuxer()` is missing; a new muxer has no handler
instance and no action. -/
def NewMuxer : Muxer :=
  { handlers := [], actions := StrMap.empty }

/-- Modelled from the spec: `auth.NewAuthenticator(userRepo, roleRepo, loginPath,
redirectPath)` is missing; it fixes the two paths and starts with a Privilege Table
without entries ("built incrementally during route registration"). The two repository
arguments are opaque collaborators and carry no state of this model. -/
def NewAuthenticator (loginPath redirectPath : String) : Authenticator :=
  { loginPath := loginPath, redirectPath := redirectPath, privileges := StrMap.empty }

/-- Modelled from the spec: `Authenticator.SetRequiredPrivileges(actionID, roleNames...)`
is missing; it "registers/overwrites the Privilege Table entry for an action". -/
def Authenticator.SetRequiredPrivileges (a : Authenticator) (path : String)
    (roleNames : List String) : Authenticator :=
  { a with privileges := a.privileges.put path roleNames }

/-- Modelled from the spec: `Muxer.AddAction(path, handlerFunction)` is missing; it stores
the handler function under the exact path string. -/
def Muxer.AddAction (m : Muxer) (path : String) (handler : Action) : Muxer :=
  { m with actions := m.actions.put path handler }

/-- Modelled from the spec: `Muxer.AddHandler(instance)` is missing; the muxer keeps the
handler instance it is given, after the ones it already holds. -/
def Muxer.AddHandler (m : Muxer) (h : HandlerType) : Muxer :=
  { m with handlers := m.handlers ++ [h] }

/-- Modelled from the spec: `InterceptorChain.AddInterceptor` is missing; the chain is an
ordered sequence and construction is append-only. -/
def AddInterceptor (chain : List Interceptor) (i : Interceptor) : List Interceptor :=
  chain ++ [i]

/-! ## The package-level variables and the calls on them -/

/-- The package-level variable declarations of `init.go` (lines 13-15):
`muxer = web.NewMuxer()`, `authenticator` declared without a value, and
`WebHandler = new(interceptor.InterceptorChain)`. -/
def initial : World :=
  { muxer := NewMuxer, authenticator := none, WebHandler := [], calls := [] }

namespace World

/-- Statement `authenticator = auth.NewAuthenticator(userRepo, roleRepo, loginPath, redirectPath)`. -/
def newAuthenticator (w : World) (loginPath redirectPath : String) : World :=
  { w with
    authenticator := some (NewAuthenticator loginPath redirectPath)
    calls := w.calls ++ [Call.NewAuthenticator loginPath redirectPath] }

/-- Statement `WebHandler.AddInterceptor(i)`. -/
def addInterceptor (w : World) (i : Interceptor) : World :=
  { w with
    WebHandler := AddInterceptor w.WebHandler i
    calls := w.calls ++ [Call.AddInterceptor i] }

/-- Statement `muxer.AddHandler(h)`. -/
def addHandler (w : World) (h : HandlerType) : World :=
  { w with
    muxer := w.muxer.AddHandler h
    calls := w.calls ++ [Call.AddHandler h] }

/-- Statement `muxer.AddAction(path, handler)`. -/
def addAction (w : World) (path : String) (handler : Action) : World :=
  { w with
    muxer := w.muxer.AddAction path handler
    calls := w.calls ++ [Call.AddAction path handler] }

/-- Statement `authenticator.SetRequiredPrivileges(path, roleNames...)`: an error while
the package-level `authenticator` is unset. -/
def setRequiredPrivileges (w : World) (path : String) (roleNames : List String) :
    Except WiringError World :=
  match w.authenticator with
  | none => Except.error (WiringError.unsetAuthenticator path)
  | some a =>
    Except.ok { w with
      authenticator := some (a.SetRequiredPrivileges path roleNames)
      calls := w.calls ++ [Call.SetRequiredPrivileges path roleNames] }

/-- The Privilege Table of the world: the table of the authenticator, without entries
while no authenticator exists. -/
def privileges (w : World) : StrMap (List String) :=
  match w.authenticator with
  | none => StrMap.empty
  | some a => a.privileges

end World

/-! ## The functions of `init.go` -/

/-- Function `addRoute(handler, path, requiredRoles...)`, `init.go` lines 109-116. -/
def addRoute (handler : Action) (path : String) (requiredRoles : List String) (w : World) :
    Except WiringError World :=
  let w := w.addAction path handler
  if requiredRoles.length > 0 then
    w.setRequiredPrivileges path requiredRoles
  else
    Except.ok w

/-- Function `initApplication`, `init.go` lines 22-61. The repositories and controllers
it builds are only handed on to the constructors of the authenticator and the handlers. -/
def initApplication (w : World) : World :=
  -- init interceptor chain
  let w := w.newAuthenticator "/auth/login" "/"
  let w := w.addInterceptor Interceptor.authenticator
  let w := w.addInterceptor Interceptor.muxer
  -- wire it all up
  let w := w.addHandler HandlerType.IndexHandler
  let w := w.addHandler HandlerType.InitHandler
  let w := w.addHandler HandlerType.AuthHandler
  let w := w.addHandler HandlerType.UserHandler
  let w := w.addHandler HandlerType.RoleHandler
  let w := w.addHandler HandlerType.FileHandler
  w

/-- Function `initRoutes`, `init.go` lines 63-107. -/
def initRoutes (w : World) : Except WiringError World := do
  -- Index
  let w ← addRoute ⟨.IndexHandler, "Index"⟩ "/" [] w
  -- Init
  let w ← addRoute ⟨.InitHandler, "Init"⟩ "/init" [] w
  -- Auth
  let w ← addRoute ⟨.AuthHandler, "Login"⟩ "/auth/login" [] w
  let w ← addRoute ⟨.AuthHandler, "Logout"⟩ "/auth/logout" [] w
  -- User
  let w ← addRoute ⟨.UserHandler, "List"⟩ "/user/list" ["Admin"] w
  let w ← addRoute ⟨.UserHandler, "Create"⟩ "/user/create" ["Admin"] w
  let w ← addRoute ⟨.UserHandler, "Retrieve"⟩ "/user/retrieve" ["Admin"] w
  let w ← addRoute ⟨.UserHandler, "Update"⟩ "/user/update" ["Admin"] w
  -- Role
  let w ← addRoute ⟨.RoleHandler, "List"⟩ "/role/list" ["Admin"] w
  let w ← addRoute ⟨.RoleHandler, "Create"⟩ "/role/create" ["Admin"] w
  let w ← addRoute ⟨.RoleHandler, "Retrieve"⟩ "/role/retrieve" ["Admin"] w
  let w ← addRoute ⟨.RoleHandler, "Update"⟩ "/role/update" ["Admin"] w
  let w ← addRoute ⟨.RoleHandler, "Delete"⟩ "/role/delete" ["Admin"] w
  let w ← addRoute ⟨.RoleHandler, "RemoveUser"⟩ "/role/users/remove" ["Admin"] w
  let w ← addRoute ⟨.RoleHandler, "AddUser"⟩ "/role/users/add" ["Admin"] w
  -- File
  let w ← addRoute ⟨.FileHandler, "List"⟩ "/file/list" [] w
  let w ← addRoute ⟨.FileHandler, "Upload"⟩ "/file/upload" [] w
  let w ← addRoute ⟨.FileHandler, "Retrieve"⟩ "/file/retrieve" [] w
  let w ← addRoute ⟨.FileHandler, "Download"⟩ "/file/download" [] w
  let w ← addRoute ⟨.FileHandler, "AddUsers"⟩ "/file/users/add" [] w
  let w ← addRoute ⟨.FileHandler, "RemoveUsers"⟩ "/file/users/remove" [] w
  let w ← addRoute ⟨.FileHandler, "AddRoles"⟩ "/file/roles/add" [] w
  let w ← addRoute ⟨.FileHandler, "RemoveRoles"⟩ "/file/roles/remove" [] w
  let w ← addRoute ⟨.FileHandler, "Tags"⟩ "/file/tags" [] w
  let w ← addRoute ⟨.FileHandler, "AddTags"⟩ "/file/tags/add" [] w
  let w ← addRoute ⟨.FileHandler, "RemoveTags"⟩ "/file/tags/remove" [] w
  let w ← addRoute ⟨.FileHandler, "SetTags"⟩ "/file/tags/set" [] w
  let w ← addRoute ⟨.FileHandler, "Delete"⟩ "/file/delete" [] w
  let w ← addRoute ⟨.FileHandler, "Search"⟩ "/file/search" [] w
  let w ← addRoute ⟨.FileHandler, "Update"⟩ "/file/update" [] w
  pure w

/-- Function `init`, `init.go` lines 17-20: `initApplication()` then `initRoutes()`, run on
the package-level variables. -/
def init (w : World) : Except WiringError World :=
  initRoutes (initApplication w)

/-! ## Sequences of `addRoute` calls -/

/-- The arguments of one `addRoute` call. -/
structure Route where
  handler : Action
  path : String
  requiredRoles : List String
deriving DecidableEq, Repr

/-- A sequence of `addRoute` calls run one after the other; the first failing call ends
the run. -/
def addRoutes : List Route → World → Except WiringError World
  | [], w => pure w
  | r :: rest, w => addRoute r.handler r.path r.requiredRoles w >>= addRoutes rest

/-- The argument lists of the 30 `addRoute` calls of `initRoutes`, in source order
(`init.go` lines 67-106). -/
def routeTable : List Route :=
  [ ⟨⟨.IndexHandler, "Index"⟩, "/", []⟩,
    ⟨⟨.InitHandler, "Init"⟩, "/init", []⟩,
    ⟨⟨.AuthHandler, "Login"⟩, "/auth/login", []⟩,
    ⟨⟨.AuthHandler, "Logout"⟩, "/auth/logout", []⟩,
    ⟨⟨.UserHandler, "List"⟩, "/user/list", ["Admin"]⟩,
    ⟨⟨.UserHandler, "Create"⟩, "/user/create", ["Admin"]⟩,
    ⟨⟨.UserHandler, "Retrieve"⟩, "/user/retrieve", ["Admin"]⟩,
    ⟨⟨.UserHandler, "Update"⟩, "/user/update", ["Admin"]⟩,
    ⟨⟨.RoleHandler, "List"⟩, "/role/list", ["Admin"]⟩,
    ⟨⟨.RoleHandler, "Create"⟩, "/role/create", ["Admin"]⟩,
    ⟨⟨.RoleHandler, "Retrieve"⟩, "/role/retrieve", ["Admin"]⟩,
    ⟨⟨.RoleHandler, "Update"⟩, "/role/update", ["Admin"]⟩,
    ⟨⟨.RoleHandler, "Delete"⟩, "/role/delete", ["Admin"]⟩,
    ⟨⟨.RoleHandler, "RemoveUser"⟩, "/role/users/remove", ["Admin"]⟩,
    ⟨⟨.RoleHandler, "AddUser"⟩, "/role/users/add", ["Admin"]⟩,
    ⟨⟨.FileHandler, "List"⟩, "/file/list", []⟩,
    ⟨⟨.FileHandler, "Upload"⟩, "/file/upload", []⟩,
    ⟨⟨.FileHandler, "Retrieve"⟩, "/file/retrieve", []⟩,
    ⟨⟨.FileHandler, "Download"⟩, "/file/download", []⟩,
    ⟨⟨.FileHandler, "AddUsers"⟩, "/file/users/add", []⟩,
    ⟨⟨.FileHandler, "RemoveUsers"⟩, "/file/users/remove", []⟩,
    ⟨⟨.FileHandler, "AddRoles"⟩, "/file/roles/add", []⟩,
    ⟨⟨.FileHandler, "RemoveRoles"⟩, "/file/roles/remove", []⟩,
    ⟨⟨.FileHandler, "Tags"⟩, "/file/tags", []⟩,
    ⟨⟨.FileHandler, "AddTags"⟩, "/file/tags/add", []⟩,
    ⟨⟨.FileHandler, "RemoveTags"⟩, "/file/tags/remove", []⟩,
    ⟨⟨.FileHandler, "SetTags"⟩, "/file/tags/set", []⟩,
    ⟨⟨.FileHandler, "Delete"⟩, "/file/delete", []⟩,
    ⟨⟨.FileHandler, "Search"⟩, "/file/search", []⟩,
    ⟨⟨.FileHandler, "Update"⟩, "/file/update", []⟩ ]

/-! ## Reading the record of calls -/

/-- The interceptor of an `AddInterceptor` call. -/
def Call.interceptor? : Call → Option Interceptor
  | Call.AddInterceptor i => some i
  | _ => none

/-- The two paths of a `NewAuthenticator` call. -/
def Call.authenticatorPaths? : Call → Option (String × String)
  | Call.NewAuthenticator l r => some (l, r)
  | _ => none

/-- The handler instance of an `AddHandler` call. -/
def Call.handler? : Call → Option HandlerType
  | Call.AddHandler h => some h
  | _ => none

/-- The path of an `AddAction` call. -/
def Call.actionPath? : Call → Option String
  | Call.AddAction p _ => some p
  | _ => none

/-- The path of a `SetRequiredPrivileges` call. -/
def Call.privilegePath? : Call → Option String
  | Call.SetRequiredPrivileges p _ => some p
  | _ => none

/-! ## Route-level authorization -/

/-- The caller of a request: unauthenticated, or an authenticated user with the role
names it holds, in the order they were assigned. -/
inductive Principal where
  | unauthenticated
  | authenticated (roles : List String)
deriving DecidableEq, Repr

/-- The outcomes of `Authorize`. -/
inductive Decision where
  | Allowed
  | DeniedMissingRole
  | DeniedUnauthenticated
deriving DecidableEq, Repr

/-- Modelled from the spec: `Authenticator.Authorize(principal, actionID)` is missing.
"Allowed iff the principal is authenticated AND (no required roles OR the principal holds
at least one required role)", where "no required roles" is the no-entry state of the
Privilege Table. -/
def Authorize (table : StrMap (List String)) (principal : Principal) (actionID : String) :
    Decision :=
  match principal with
  | Principal.unauthenticated => Decision.DeniedUnauthenticated
  | Principal.authenticated roles =>
    match table.get actionID with
    | none => Decision.Allowed
    | some required =>
      if required.any (fun r => decide (r ∈ roles)) then Decision.Allowed
      else Decision.DeniedMissingRole

/-! ## Invariants of the two tables -/

/-- No entry of the Privilege Table is the empty role list. -/
def NoEmptyEntry (w : World) : Prop :=
  ∀ p : String, w.privileges.get p ≠ some []

/-- Every path with an entry in the Privilege Table has an action on the muxer. -/
def EntriesHaveActions (w : World) : Prop :=
  ∀ p : String, (w.privileges.get p).isSome = true → (w.muxer.actions.get p).isSome = true

/-! ## Lemmas on maps -/

theorem StrMap.find_remove {V : Type} (l : List (String × V)) (k key : String) :
    StrMap.find (StrMap.remove l k) key = if key = k then none else StrMap.find l key := by
  induction l with
  | nil => simp [StrMap.find, StrMap.remove]
  | cons e rest ih =>
    obtain ⟨k0, v0⟩ := e
    by_cases h0 : k0 = k
    · subst h0
      by_cases h1 : key = k0
      · subst h1
        simpa [StrMap.remove] using ih
      · simp [StrMap.remove, ih, h1, StrMap.find]
    · by_cases h1 : key = k
      · subst h1
        have h2 : ¬ key = k0 := fun h => h0 h.symm
        simp [StrMap.remove, h0, StrMap.find, ih, h2]
      · simp [StrMap.remove, h0, StrMap.find, ih, h1]

theorem StrMap.get_empty {V : Type} (key : String) : (StrMap.empty : StrMap V).get key = none :=
  rfl

theorem StrMap.get_put {V : Type} (m : StrMap V) (k : String) (v : V) (key : String) :
    (m.put k v).get key = if key = k then some v else m.get key := by
  by_cases h : key = k
  · simp [StrMap.get, StrMap.put, StrMap.find, h]
  · simp [StrMap.get, StrMap.put, StrMap.find, h, StrMap.find_remove]

theorem StrMap.find_isSome_iff {V : Type} (l : List (String × V)) (key : String) :
    (StrMap.find l key).isSome = true ↔ key ∈ l.map Prod.fst := by
  induction l with
  | nil => simp [StrMap.find]
  | cons e rest ih =>
    obtain ⟨k0, v0⟩ := e
    by_cases h : key = k0
    · simp [StrMap.find, h]
    · simp [StrMap.find, h, ih]

theorem StrMap.find_eq_none_iff {V : Type} (l : List (String × V)) (key : String) :
    StrMap.find l key = none ↔ key ∉ l.map Prod.fst := by
  rw [← StrMap.find_isSome_iff]
  cases StrMap.find l key <;> simp

theorem StrMap.find_of_const {V : Type} (l : List (String × V)) (v : V)
    (hl : ∀ e ∈ l, e.2 = v) (key : String) :
    StrMap.find l key = if key ∈ l.map Prod.fst then some v else none := by
  induction l with
  | nil => simp [StrMap.find]
  | cons e rest ih =>
    obtain ⟨k0, v0⟩ := e
    have h0 : v0 = v := hl (k0, v0) (List.mem_cons_self _ _)
    have hr : ∀ e ∈ rest, e.2 = v := fun e he => hl e (List.mem_cons_of_mem _ he)
    by_cases h : key = k0
    · simp [StrMap.find, h, h0]
    · simp only [StrMap.find, h, if_false, ih hr, List.map_cons, List.mem_cons, false_or]

/-! ## Lemmas on `addRoute` -/

theorem initRoutes_eq_addRoutes (w : World) : initRoutes w = addRoutes routeTable w := rfl

theorem addRoute_nil (handler : Action) (path : String) (w : World) :
    addRoute handler path [] w = Except.ok (w.addAction path handler) := rfl

theorem addRoute_cons_some (handler : Action) (path r : String) (rs : List String) (w : World)
    (a : Authenticator) (ha : w.authenticator = some a) :
    addRoute handler path (r :: rs) w =
      Except.ok
        { muxer := w.muxer.AddAction path handler
          authenticator := some (a.SetRequiredPrivileges path (r :: rs))
          WebHandler := w.WebHandler
          calls := w.calls ++ [Call.AddAction path handler,
            Call.SetRequiredPrivileges path (r :: rs)] } := by
  simp [addRoute, World.setRequiredPrivileges, World.addAction, ha]

theorem addRoute_cons_none (handler : Action) (path r : String) (rs : List String) (w : World)
    (ha : w.authenticator = none) :
    addRoute handler path (r :: rs) w =
      Except.error (WiringError.unsetAuthenticator path) := by
  simp [addRoute, World.setRequiredPrivileges, World.addAction, ha]

/-- What a returning `addRoute` call leaves behind, whatever the state of the
authenticator. -/
theorem addRoute_ok_inv (handler : Action) (path : String) (roles : List String)
    (w w' : World) (h : addRoute handler path roles w = Except.ok w') :
    w'.muxer = w.muxer.AddAction path handler ∧
    w'.WebHandler = w.WebHandler ∧
    w'.authenticator.isSome = w.authenticator.isSome ∧
    w'.privileges = (if roles = [] then w.privileges else w.privileges.put path roles) := by
  cases roles with
  | nil =>
    rw [addRoute_nil] at h
    cases h
    exact ⟨rfl, rfl, rfl, rfl⟩
  | cons r rs =>
    cases ha : w.authenticator with
    | none =>
      rw [addRoute_cons_none handler path r rs w ha] at h
      cases h
    | some a =>
      rw [addRoute_cons_some handler path r rs w a ha] at h
      cases h
      simp [World.privileges, ha, Authenticator.SetRequiredPrivileges]

/-- With the authenticator assigned, `addRoute` returns. -/
theorem addRoute_total (handler : Action) (path : String) (roles : List String)
    (w : World) (hw : w.authenticator.isSome = true) :
    ∃ w', addRoute handler path roles w = Except.ok w' := by
  cases roles with
  | nil => exact ⟨_, addRoute_nil handler path w⟩
  | cons r rs =>
    cases ha : w.authenticator with
    | none => simp [ha] at hw
    | some a => exact ⟨_, addRoute_cons_some handler path r rs w a ha⟩

theorem addRoutes_nil (w : World) : addRoutes [] w = Except.ok w := rfl

theorem addRoutes_cons_ok (r : Route) (rest : List Route) (w w1 : World)
    (h : addRoute r.handler r.path r.requiredRoles w = Except.ok w1) :
    addRoutes (r :: rest) w = addRoutes rest w1 := by
  simp only [addRoutes, h]
  rfl

theorem addRoutes_cons_inv (r : Route) (rest : List Route) (w w' : World)
    (h : addRoutes (r :: rest) w = Except.ok w') :
    ∃ w1, addRoute r.handler r.path r.requiredRoles w = Except.ok w1 ∧
      addRoutes rest w1 = Except.ok w' := by
  cases h1 : addRoute r.handler r.path r.requiredRoles w with
  | error e =>
    simp only [addRoutes, h1] at h
    cases h
  | ok w1 =>
    rw [addRoutes_cons_ok r rest w w1 h1] at h
    exact ⟨w1, rfl, h⟩

/-- With the authenticator assigned, every sequence of `addRoute` calls returns. -/
theorem addRoutes_total (rs : List Route) (w : World) (hw : w.authenticator.isSome = true) :
    ∃ w', addRoutes rs w = Except.ok w' := by
  induction rs generalizing w with
  | nil => exact ⟨w, rfl⟩
  | cons r rest ih =>
    obtain ⟨w1, h1⟩ := addRoute_total r.handler r.path r.requiredRoles w hw
    have hw1 : w1.authenticator.isSome = true := by
      rw [(addRoute_ok_inv _ _ _ _ _ h1).2.2.1]
      exact hw
    obtain ⟨w', h'⟩ := ih w1 hw1
    exact ⟨w', by rw [addRoutes_cons_ok r rest w w1 h1]; exact h'⟩

/-- A sequence of `addRoute` calls leaves the two tables untouched at every path it does
not mention. -/
theorem addRoutes_get_other (rs : List Route) (w w' : World)
    (h : addRoutes rs w = Except.ok w') (p : String) (hp : p ∉ rs.map Route.path) :
    w'.muxer.actions.get p = w.muxer.actions.get p ∧
    w'.privileges.get p = w.privileges.get p := by
  induction rs generalizing w with
  | nil =>
    rw [addRoutes_nil] at h
    cases h
    exact ⟨rfl, rfl⟩
  | cons r rest ih =>
    obtain ⟨w1, h1, h2⟩ := addRoutes_cons_inv r rest w w' h
    have hne : p ≠ r.path := fun e => hp (by simp [e])
    have hrest : p ∉ rest.map Route.path := fun e => hp (by simp [e])
    obtain ⟨hm, _, _, hpr⟩ := addRoute_ok_inv _ _ _ _ _ h1
    obtain ⟨e1, e2⟩ := ih w1 h2 hrest
    refine ⟨?_, ?_⟩
    · rw [e1, hm, Muxer.AddAction, StrMap.get_put, if_neg hne]
    · rw [e2, hpr]
      split_ifs
      · rfl
      · rw [StrMap.get_put, if_neg hne]

theorem addRoute_noEmptyEntry (handler : Action) (path : String) (roles : List String)
    (w w' : World) (h : addRoute handler path roles w = Except.ok w') (hw : NoEmptyEntry w) :
    NoEmptyEntry w' := by
  obtain ⟨_, _, _, hpr⟩ := addRoute_ok_inv _ _ _ _ _ h
  intro p
  rw [hpr]
  split_ifs with hr
  · exact hw p
  · rw [StrMap.get_put]
    split_ifs
    · intro e
      exact hr (Option.some.inj e)
    · exact hw p

theorem addRoute_entriesHaveActions (handler : Action) (path : String) (roles : List String)
    (w w' : World) (h : addRoute handler path roles w = Except.ok w')
    (hw : EntriesHaveActions w) : EntriesHaveActions w' := by
  obtain ⟨hm, _, _, hpr⟩ := addRoute_ok_inv _ _ _ _ _ h
  intro p
  rw [hpr, hm, Muxer.AddAction, StrMap.get_put]
  by_cases hp : p = path
  · simp [hp]
  · simp only [if_neg hp]
    split_ifs
    · exact hw p
    · rw [StrMap.get_put, if_neg hp]
      exact hw p

theorem addRoutes_noEmptyEntry (rs : List Route) (w w' : World)
    (h : addRoutes rs w = Except.ok w') (hw : NoEmptyEntry w) : NoEmptyEntry w' := by
  induction rs generalizing w with
  | nil =>
    rw [addRoutes_nil] at h
    cases h
    exact hw
  | cons r rest ih =>
    obtain ⟨w1, h1, h2⟩ := addRoutes_cons_inv r rest w w' h
    exact ih w1 h2 (addRoute_noEmptyEntry _ _ _ _ _ h1 hw)

theorem addRoutes_entriesHaveActions (rs : List Route) (w w' : World)
    (h : addRoutes rs w = Except.ok w') (hw : EntriesHaveActions w) :
    EntriesHaveActions w' := by
  induction rs generalizing w with
  | nil =>
    rw [addRoutes_nil] at h
    cases h
    exact hw
  | cons r rest ih =>
    obtain ⟨w1, h1, h2⟩ := addRoutes_cons_inv r rest w w' h
    exact ih w1 h2 (addRoute_entriesHaveActions _ _ _ _ _ h1 hw)

/-! ## The wiring built by `init` -/

/-- C1: after `init`, run on the package-level variables (whose Privilege Table is empty, and
still empty after `initApplication`), the Privilege Table has an entry for exactly the 11
paths `/user/list`, `/user/create`, `/user/retrieve`, `/user/update`, `/role/list`,
`/role/create`, `/role/retrieve`, `/role/update`, `/role/delete`, `/role/users/remove`,
`/role/users/add`; each of these entries is the role list `["Admin"]`; the registered
actions are exactly the 30 paths of `initRoutes`, and each of the 19 other registered paths
(`/`, `/init`, `/auth/login`, `/auth/logout` and the 15 `/file/...` paths) is registered as an
action and has no entry. -/
theorem init_privilege_table :
    initial.privileges = StrMap.empty ∧
    (initApplication initial).privileges = StrMap.empty ∧
    ∃ w, init initial = Except.ok w ∧
      (∀ p : String, w.privileges.get p =
        if p ∈ ["/user/list", "/user/create", "/user/retrieve", "/user/update",
            "/role/list", "/role/create", "/role/retrieve", "/role/update", "/role/delete",
            "/role/users/remove", "/role/users/add"]
        then some ["Admin"] else none) ∧
      w.privileges.keys.length = 11 ∧
      (∀ p : String, (w.muxer.actions.get p).isSome = true ↔
        p ∈ ["/", "/init", "/auth/login", "/auth/logout",
            "/user/list", "/user/create", "/user/retrieve", "/user/update",
            "/role/list", "/role/create", "/role/retrieve", "/role/update", "/role/delete",
            "/role/users/remove", "/role/users/add",
            "/file/list", "/file/upload", "/file/retrieve", "/file/download",
            "/file/users/add", "/file/users/remove", "/file/roles/add", "/file/roles/remove",
            "/file/tags", "/file/tags/add", "/file/tags/remove", "/file/tags/set",
            "/file/delete", "/file/search", "/file/update"]) ∧
      (∀ p ∈ ["/", "/init", "/auth/login", "/auth/logout",
            "/file/list", "/file/upload", "/file/retrieve", "/file/download",
            "/file/users/add", "/file/users/remove", "/file/roles/add", "/file/roles/remove",
            "/file/tags", "/file/tags/add", "/file/tags/remove", "/file/tags/set",
            "/file/delete", "/file/search", "/file/update"],
        (w.muxer.actions.get p).isSome = true ∧ w.privileges.get p = none) := by
  refine ⟨rfl, rfl, _, rfl, ?_, by decide, ?_, by decide⟩
  · intro p
    rw [StrMap.get, StrMap.find_of_const _ ["Admin"] (by decide) p]
    have hk : ((initRoutes (initApplication initial)).toOption.getD initial).privileges.entries.map
        Prod.fst = ["/user/list", "/user/create", "/user/retrieve", "/user/update",
            "/role/list", "/role/create", "/role/retrieve", "/role/update", "/role/delete",
            "/role/users/remove", "/role/users/add"].reverse := by decide
    have hk2 := congrArg (fun l => p ∈ l) hk
    simp only [List.mem_reverse] at hk2
    exact if_congr (iff_of_eq hk2) rfl rfl
  · intro p
    rw [StrMap.get, StrMap.find_isSome_iff]
    have hk : ((initRoutes (initApplication initial)).toOption.getD initial).muxer.actions.entries.map
        Prod.fst = ["/", "/init", "/auth/login", "/auth/logout",
            "/user/list", "/user/create", "/user/retrieve", "/user/update",
            "/role/list", "/role/create", "/role/retrieve", "/role/update", "/role/delete",
            "/role/users/remove", "/role/users/add",
            "/file/list", "/file/upload", "/file/retrieve", "/file/download",
            "/file/users/add", "/file/users/remove", "/file/roles/add", "/file/roles/remove",
            "/file/tags", "/file/tags/add", "/file/tags/remove", "/file/tags/set",
            "/file/delete", "/file/search", "/file/update"].reverse := by decide
    have hk2 := congrArg (fun l => p ∈ l) hk
    simp only [List.mem_reverse] at hk2
    exact iff_of_eq hk2

/-- C1, at concrete paths: after `init` the entry of `/role/delete` is `["Admin"]` and the
registered path `/auth/login` has no entry. -/
theorem init_privilege_table_witness :
    ∃ w, init initial = Except.ok w ∧
      w.privileges.get "/role/delete" = some ["Admin"] ∧
      (w.muxer.actions.get "/auth/login").isSome = true ∧
      w.privileges.get "/auth/login" = none := by
  obtain ⟨_, _, w, hw, h1, _, _, h3⟩ := init_privilege_table
  refine ⟨w, hw, ?_, (h3 "/auth/login" (by simp)).1, (h3 "/auth/login" (by simp)).2⟩
  rw [h1]
  simp

/-- C2: after `init` the interceptor chain `WebHandler`, empty before, holds exactly two
interceptors, the authenticator first and the muxer second; the chain is already complete
when `initApplication` returns, and the `AddInterceptor` calls of the whole wiring are
these two, in this order. -/
theorem init_interceptor_chain :
    initial.WebHandler = [] ∧
    (initApplication initial).WebHandler = [Interceptor.authenticator, Interceptor.muxer] ∧
    ∃ w, init initial = Except.ok w ∧
      w.WebHandler = [Interceptor.authenticator, Interceptor.muxer] ∧
      w.WebHandler.length = 2 ∧
      w.calls.filterMap Call.interceptor? = [Interceptor.authenticator, Interceptor.muxer] :=
  ⟨rfl, rfl, _, rfl, by decide, by decide, by decide⟩

/-- C3: `addRoute(handler, path, roles...)` calls `SetRequiredPrivileges(path, roles...)`
exactly when `roles` is non-empty. With an empty list it returns having made the
`AddAction` call only, and the authenticator with its whole Privilege Table is unchanged.
With a non-empty list and the authenticator assigned it returns having made the `AddAction`
call and then the `SetRequiredPrivileges` call, the entry of `path` is `roles` (inserted or
overwritten) and the entry of every other path is unchanged; with the authenticator unset
that call is the error. -/
theorem addRoute_privileges_frame (handler : Action) (path : String) (roles : List String)
    (w : World) :
    (roles = [] →
      ∃ w', addRoute handler path roles w = Except.ok w' ∧
        w'.calls = w.calls ++ [Call.AddAction path handler] ∧
        w'.authenticator = w.authenticator ∧
        w'.privileges = w.privileges ∧
        ∀ p : String, w'.privileges.get p = w.privileges.get p) ∧
    (roles ≠ [] → ∀ a, w.authenticator = some a →
      ∃ w', addRoute handler path roles w = Except.ok w' ∧
        w'.calls = w.calls ++
          [Call.AddAction path handler, Call.SetRequiredPrivileges path roles] ∧
        w'.privileges.get path = some roles ∧
        ∀ p : String, p ≠ path → w'.privileges.get p = w.privileges.get p) ∧
    (roles ≠ [] → w.authenticator = none →
      addRoute handler path roles w = Except.error (WiringError.unsetAuthenticator path)) := by
  refine ⟨?_, ?_, ?_⟩
  · intro hr
    subst hr
    exact ⟨_, addRoute_nil handler path w, rfl, rfl, rfl, fun _ => rfl⟩
  · intro hr a ha
    cases roles with
    | nil => exact absurd rfl hr
    | cons r rs =>
      refine ⟨_, addRoute_cons_some handler path r rs w a ha, rfl, ?_, ?_⟩
      · simp [World.privileges, Authenticator.SetRequiredPrivileges, StrMap.get_put]
      · intro p hp
        simp [World.privileges, Authenticator.SetRequiredPrivileges, StrMap.get_put, hp, ha]
  · intro hr ha
    cases roles with
    | nil => exact absurd rfl hr
    | cons r rs => exact addRoute_cons_none handler path r rs w ha

/-- C3, at concrete calls: `/file/list` without roles on the package-level variables, and
`/role/delete` with `Admin`, first on a table without entries and then overwriting the
entry `/role/delete` of a table that holds another entry too. -/
theorem addRoute_privileges_frame_witness :
    (∃ w', addRoute ⟨.FileHandler, "List"⟩ "/file/list" [] initial = Except.ok w' ∧
      w'.authenticator = initial.authenticator) ∧
    (∃ w', addRoute ⟨.RoleHandler, "Delete"⟩ "/role/delete" ["Admin"]
        (initApplication initial) = Except.ok w' ∧
      w'.privileges.get "/role/delete" = some ["Admin"]) ∧
    (∃ w', addRoute ⟨.RoleHandler, "Delete"⟩ "/role/delete" ["Admin"]
        (World.mk NewMuxer (some (Authenticator.mk "/auth/login" "/"
          ⟨[("/role/delete", ["Owner"]), ("/role/list", ["Admin"])]⟩)) [] [])
        = Except.ok w' ∧
      w'.privileges.get "/role/delete" = some ["Admin"] ∧
      w'.privileges.get "/role/list" = some ["Admin"]) ∧
    addRoute ⟨.RoleHandler, "Delete"⟩ "/role/delete" ["Admin"] initial =
      Except.error (WiringError.unsetAuthenticator "/role/delete") := by
  refine ⟨?_, ?_, ?_, ?_⟩
  · obtain ⟨w', h, _, ha, _⟩ :=
      (addRoute_privileges_frame ⟨.FileHandler, "List"⟩ "/file/list" [] initial).1 rfl
    exact ⟨w', h, ha⟩
  · obtain ⟨w', h, _, hp, _⟩ :=
      (addRoute_privileges_frame ⟨.RoleHandler, "Delete"⟩ "/role/delete" ["Admin"]
        (initApplication initial)).2.1 (by simp) _ rfl
    exact ⟨w', h, hp⟩
  · obtain ⟨w', h, _, hp, hq⟩ :=
      (addRoute_privileges_frame ⟨.RoleHandler, "Delete"⟩ "/role/delete" ["Admin"]
        (World.mk NewMuxer (some (Authenticator.mk "/auth/login" "/"
          ⟨[("/role/delete", ["Owner"]), ("/role/list", ["Admin"])]⟩)) [] [])).2.1
        (by simp) _ rfl
    refine ⟨w', h, hp, ?_⟩
    rw [hq "/role/list" (by decide)]
    decide
  · exact (addRoute_privileges_frame ⟨.RoleHandler, "Delete"⟩ "/role/delete" ["Admin"]
      initial).2.2 (by simp) rfl

/-- C4: on the Privilege Table built by `init`, under the `Authorize` rule of the
specification, an authenticated principal without roles is denied on `/role/delete` for a
missing role, and every authenticated principal whose role list contains `Admin` is allowed
on `/role/delete`, whatever else the list holds and in whatever order. -/
theorem authorize_role_delete :
    ∃ w, init initial = Except.ok w ∧
      Authorize w.privileges (Principal.authenticated []) "/role/delete" =
        Decision.DeniedMissingRole ∧
      ∀ roles : List String, "Admin" ∈ roles →
        Authorize w.privileges (Principal.authenticated roles) "/role/delete" =
          Decision.Allowed := by
  refine ⟨_, rfl, by decide, ?_⟩
  intro roles h
  have hg : ((initRoutes (initApplication initial)).toOption.getD initial).privileges.get
      "/role/delete" = some ["Admin"] := by decide
  simp only [Authorize]
  erw [hg]
  simp [h]

/-- C4, at concrete principals: `Admin` alone, `Admin` after another role and `Admin`
before another role are all allowed on `/role/delete`. -/
theorem authorize_role_delete_witness :
    ∃ w, init initial = Except.ok w ∧
      Authorize w.privileges (Principal.authenticated ["Admin"]) "/role/delete" =
        Decision.Allowed ∧
      Authorize w.privileges (Principal.authenticated ["Guest", "Admin"]) "/role/delete" =
        Decision.Allowed ∧
      Authorize w.privileges (Principal.authenticated ["Admin", "Guest"]) "/role/delete" =
        Decision.Allowed := by
  obtain ⟨w, hw, _, h⟩ := authorize_role_delete
  exact ⟨w, hw, h ["Admin"] (by simp), h ["Guest", "Admin"] (by simp),
    h ["Admin", "Guest"] (by simp)⟩

/-- C5: `initRoutes` is the sequence of the 30 `addRoute` calls of `routeTable`; their 30
path strings are pairwise distinct; the `AddAction` calls recorded by `init` carry exactly
these paths, in order, and the paths of the recorded `SetRequiredPrivileges` calls are
pairwise distinct; and when a call of the sequence is reached, neither the action table of
the muxer nor the Privilege Table holds its path yet, so no call overwrites an action or an
entry written by an earlier call. -/
theorem initRoutes_paths_distinct :
    (∀ w : World, initRoutes w = addRoutes routeTable w) ∧
    (routeTable.map Route.path).length = 30 ∧
    (routeTable.map Route.path).Nodup ∧
    (∃ w, init initial = Except.ok w ∧
      w.calls.filterMap Call.actionPath? = routeTable.map Route.path ∧
      (w.calls.filterMap Call.privilegePath?).Nodup) ∧
    ∀ (before : List Route) (r : Route) (after : List Route),
      routeTable = before ++ r :: after →
      ∃ w, addRoutes before (initApplication initial) = Except.ok w ∧
        w.muxer.actions.get r.path = none ∧ w.privileges.get r.path = none := by
  have hnd : (routeTable.map Route.path).Nodup := by decide
  refine ⟨fun _ => rfl, by decide, hnd, ⟨_, rfl, by decide, by decide⟩, ?_⟩
  intro before r after hsplit
  obtain ⟨w, hw⟩ := addRoutes_total before (initApplication initial) rfl
  have hr : r.path ∉ before.map Route.path := by
    rw [hsplit, List.map_append, List.map_cons] at hnd
    intro hmem
    exact (List.nodup_append.mp hnd).2.2 hmem (List.mem_cons_self _ _)
  obtain ⟨e1, e2⟩ := addRoutes_get_other before _ w hw r.path hr
  exact ⟨w, hw, by rw [e1]; rfl, by rw [e2]; rfl⟩

/-- C5, at a concrete call: when `/role/delete` is reached, after the twelve calls before
it, neither table holds `/role/delete`. -/
theorem initRoutes_paths_distinct_witness :
    ∃ w, addRoutes (routeTable.take 12) (initApplication initial) = Except.ok w ∧
      w.muxer.actions.get "/role/delete" = none ∧ w.privileges.get "/role/delete" = none :=
  initRoutes_paths_distinct.2.2.2.2 (routeTable.take 12)
    ⟨⟨.RoleHandler, "Delete"⟩, "/role/delete", ["Admin"]⟩ (routeTable.drop 13) (by decide)

/-- C6: the wiring makes exactly one `NewAuthenticator` call, with login path
`/auth/login` and redirect path `/`, and the authenticator after `init` carries these two
paths; both are registered as actions by `initRoutes`; after `init` neither has a
Privilege Table entry, so the lookup of `/auth/login` gives the same result, no entry, as
the lookup of `/file/list`. -/
theorem authenticator_paths :
    ∃ w, init initial = Except.ok w ∧
      w.calls.filterMap Call.authenticatorPaths? = [("/auth/login", "/")] ∧
      (∃ a, w.authenticator = some a ∧ a.loginPath = "/auth/login" ∧ a.redirectPath = "/") ∧
      w.muxer.actions.get "/auth/login" = some ⟨.AuthHandler, "Login"⟩ ∧
      w.muxer.actions.get "/" = some ⟨.IndexHandler, "Index"⟩ ∧
      "/auth/login" ∈ routeTable.map Route.path ∧
      "/" ∈ routeTable.map Route.path ∧
      w.privileges.get "/auth/login" = none ∧
      w.privileges.get "/" = none ∧
      w.privileges.get "/file/list" = none ∧
      w.privileges.get "/auth/login" = w.privileges.get "/file/list" :=
  ⟨_, rfl, by decide, ⟨_, rfl, by decide, by decide⟩, by decide, by decide, by decide,
    by decide, by decide, by decide, by decide, by decide⟩

/-- C7: for every sequence of `addRoute` calls run on a world whose Privilege Table has no
entry equal to the empty role list (the table without entries included), the Privilege
Table of every world the sequence returns has no such entry either; and with the
authenticator assigned the sequence does return. -/
theorem addRoutes_never_empty_entry (rs : List Route) (w : World)
    (hw : ∀ p : String, w.privileges.get p ≠ some []) :
    (∀ w', addRoutes rs w = Except.ok w' → ∀ p : String, w'.privileges.get p ≠ some []) ∧
    (w.authenticator.isSome = true →
      ∃ w', addRoutes rs w = Except.ok w' ∧ ∀ p : String, w'.privileges.get p ≠ some []) := by
  refine ⟨fun w' h => addRoutes_noEmptyEntry rs w w' h hw, fun ha => ?_⟩
  obtain ⟨w', h⟩ := addRoutes_total rs w ha
  exact ⟨w', h, addRoutes_noEmptyEntry rs w w' h hw⟩

/-- C7, at concrete inputs: three calls, one of them without roles and two writing the
same path, run on the table without entries that `initApplication` leaves. -/
theorem addRoutes_never_empty_entry_witness :
    (∀ p : String, (initApplication initial).privileges.get p ≠ some []) ∧
    ∃ w', addRoutes
        [⟨⟨.FileHandler, "List"⟩, "/file/list", []⟩,
         ⟨⟨.RoleHandler, "Delete"⟩, "/role/delete", ["Admin"]⟩,
         ⟨⟨.RoleHandler, "Delete"⟩, "/role/delete", ["Owner", "Admin"]⟩]
        (initApplication initial) = Except.ok w' ∧
      ∀ p : String, w'.privileges.get p ≠ some [] :=
  ⟨fun _ => by simp [StrMap.get_empty, show (initApplication initial).privileges =
      StrMap.empty from rfl],
    (addRoutes_never_empty_entry _ (initApplication initial)
      (fun _ => by simp [StrMap.get_empty, show (initApplication initial).privileges =
        StrMap.empty from rfl])).2 rfl⟩

/-- C8: for every sequence of `addRoute` calls run on a world whose muxer has no action and
whose Privilege Table has no entry, every path with an entry in the Privilege Table of a
world the sequence returns has an action on the muxer under the same path string; and
with the authenticator assigned the sequence does return. -/
theorem addRoutes_entries_have_actions (rs : List Route) (w : World)
    (hm : w.muxer.actions = StrMap.empty) (hp : w.privileges = StrMap.empty) :
    (∀ w', addRoutes rs w = Except.ok w' →
      ∀ p : String, (w'.privileges.get p).isSome = true →
        (w'.muxer.actions.get p).isSome = true) ∧
    (w.authenticator.isSome = true → ∃ w', addRoutes rs w = Except.ok w') := by
  have h0 : EntriesHaveActions w := by
    intro p h
    rw [hp, StrMap.get_empty] at h
    cases h
  have _ := hm
  exact ⟨fun w' h => addRoutes_entriesHaveActions rs w w' h h0,
    fun ha => addRoutes_total rs w ha⟩

/-- C8, at a concrete input: the 30 calls of `initRoutes` on the world left by
`initApplication`; the entry of `/role/delete` comes with an action for `/role/delete`. -/
theorem addRoutes_entries_have_actions_witness :
    (initApplication initial).muxer.actions = StrMap.empty ∧
    (initApplication initial).privileges = StrMap.empty ∧
    ∃ w', addRoutes routeTable (initApplication initial) = Except.ok w' ∧
      (w'.privileges.get "/role/delete").isSome = true ∧
      (w'.muxer.actions.get "/role/delete").isSome = true :=
  ⟨rfl, rfl, _, rfl, by decide,
    (addRoutes_entries_have_actions routeTable (initApplication initial) rfl rfl).1 _ rfl
      "/role/delete" (by decide)⟩

/-- C9: the package-level `authenticator` starts unset and is assigned by
`initApplication`; the first recorded call of `init` is the `NewAuthenticator` call and no
`AddAction` call precedes it; `init` returns, from the package-level variables and from
every other world; `initRoutes` alone on the package-level variables ends in the
unset-authenticator error of the `SetRequiredPrivileges` call for `/user/list`, the first
route of the table with required roles, the four routes before it having returned. -/
theorem init_assigns_authenticator_first :
    initial.authenticator = none ∧
    (initApplication initial).authenticator = some (NewAuthenticator "/auth/login" "/") ∧
    (initApplication initial).calls.filterMap Call.actionPath? = [] ∧
    (∃ w, init initial = Except.ok w ∧
      w.calls.head? = some (Call.NewAuthenticator "/auth/login" "/")) ∧
    (∀ w0 : World, ∃ w, init w0 = Except.ok w) ∧
    initRoutes initial = Except.error (WiringError.unsetAuthenticator "/user/list") ∧
    (routeTable.find? (fun r => decide (r.requiredRoles ≠ []))).map Route.path =
      some "/user/list" ∧
    (∃ w, addRoutes (routeTable.take 4) initial = Except.ok w) ∧
    addRoutes (routeTable.take 5) initial =
      Except.error (WiringError.unsetAuthenticator "/user/list") := by
  refine ⟨rfl, rfl, by decide, ⟨_, rfl, by decide⟩, ?_, rfl, by decide, ⟨_, rfl⟩, rfl⟩
  intro w0
  exact addRoutes_total routeTable (initApplication w0) rfl

/-- C10: `initApplication` adds exactly one instance of each of the six handler types
`IndexHandler`, `InitHandler`, `AuthHandler`, `UserHandler`, `RoleHandler`, `FileHandler` to
the muxer, and `initRoutes` leaves them in place; the receiver type of the action of every
route of `initRoutes` has an instance among them, and every one of the six types is the
receiver type of the action of some route. -/
theorem handler_instances_cover_routes :
    (initApplication initial).muxer.handlers =
      [.IndexHandler, .InitHandler, .AuthHandler, .UserHandler, .RoleHandler, .FileHandler] ∧
    (∀ t : HandlerType, (initApplication initial).muxer.handlers.count t = 1) ∧
    (∀ t : HandlerType,
      ((initApplication initial).calls.filterMap Call.handler?).count t = 1) ∧
    (∀ w : World, initRoutes w = addRoutes routeTable w) ∧
    (∀ r ∈ routeTable, r.handler.receiver ∈ (initApplication initial).muxer.handlers) ∧
    (∀ t : HandlerType, ∃ r ∈ routeTable, r.handler.receiver = t) ∧
    ∃ w, init initial = Except.ok w ∧
      w.muxer.handlers = (initApplication initial).muxer.handlers ∧
      (w.calls.filterMap Call.handler?) = (initApplication initial).muxer.handlers ∧
      w.muxer.actions.entries.map Prod.snd = (routeTable.map Route.handler).reverse := by
  refine ⟨rfl, ?_, ?_, fun _ => rfl, by decide, ?_, _, rfl, by decide, by decide, by decide⟩
  · intro t
    cases t <;> decide
  · intro t
    cases t <;> decide
  · intro t
    cases t <;> decide

/-- C10, at a concrete route: the route `/role/delete` has the action
`RoleHandler.Delete`, and `RoleHandler` has an instance on the muxer. -/
theorem handler_instances_cover_routes_witness :
    HandlerType.RoleHandler ∈ (initApplication initial).muxer.handlers :=
  handler_instances_cover_routes.2.2.2.2.1
    ⟨⟨.RoleHandler, "Delete"⟩, "/role/delete", ["Admin"]⟩ (by decide)

end Cloudfiler
